/-
Verification of the computational core of the Munich transit isochrone
application: the connectivity search over GTFS stop-time records
(src/utils/gtfsParser.ts), the radial travel-time sampler
(src/utils/isochroneUtils/pointGeneration.ts), the TIN-based travel-time
interpolation and per-threshold region assembly
(src/utils/isochroneCalculator.ts), the threshold contour extractor and
palette (src/utils/isochroneUtils/isochroneGenerator.ts), and the GTFS
time-string utilities (src/utils/gtfsUtils/timeUtils.ts).

Modelling conventions:
* JavaScript numbers are embedded as exact rationals (ℚ).  All concrete
  values appearing in the claims are small integers, where rational and
  IEEE-754 arithmetic agree.
* External Turf.js geometry routines (tin/pointGrid/isolines/union,
  concave, convex, destination, distance) are not part of the repository;
  they enter the embedding as explicit function parameters ("oracles"),
  so theorems quantify over every possible library behaviour.  Turf's
  documented failure signal for `concave`/`convex` is a `null` return;
  a thrown exception is modelled as `Except.error ()`.
* JavaScript `Map<string, number>` values are embedded as functions
  `String → Option ℚ` (the entry-order of the final array conversion is
  not relevant to any claim).
* `Array.prototype.sort` with the numeric comparator used in the source
  is a stable comparison sort; it is embedded as `List.insertionSort`,
  which is a stable comparison sort for the same order.
-/
import Mathlib

set_option maxRecDepth 100000

/-! ## Geometry and sample data model -/

/-- A travel-time sample: a GeoJSON point feature `[lon, lat]` whose
`properties.travelTime` field may be absent (`none`), mirroring the
optional `travelTime` of `PointsWithTravelTimeCollection` in
isochroneUtils/types.ts. -/
structure Sample where
  pt : ℚ × ℚ
  travelTime : Option ℚ
  deriving DecidableEq

/-- Output geometry of the extraction pipeline.  `circle center radiusKm
steps` is `turf.circle` with the given centre, radius in kilometres and
segment count (Turf's default of 64 segments is written explicitly);
`shape tag` stands for an opaque polygon produced by an external library
call (hull or isoline output), identified by an uninterpreted tag. -/
inductive Geo where
  | circle (center : ℚ × ℚ) (radiusKm : ℚ) (steps : ℕ) : Geo
  | shape (tag : ℕ) : Geo
  deriving DecidableEq

/-- A GeoJSON feature as assembled by `calculateIsochrone`: a geometry
plus a `properties` object, embedded as a key/value association list of
numeric properties. -/
structure IsoRegion where
  geo : Geo
  props : List (String × ℚ)
  deriving DecidableEq

/-- Read the `contour` property of a region (the threshold tag attached
by `calculateIsochrone`). -/
def contourOf (r : IsoRegion) : Option ℚ :=
  r.props.lookup ("contour")

/-! ## Contour extractor (isochroneGenerator.ts, appended to
isochroneUtils/DOCUMENTATION.md) -/

/-- The filter at the top of `calculateIsochroneForThreshold`:
`points.features.filter(p => (p.properties?.travelTime || 0) <= timeThreshold)`.
JavaScript `x || 0` maps an absent `travelTime` to 0 (and keeps every
number except 0, which it also maps to 0), which is `Option.getD 0`. -/
def qualifyingSamples (points : List Sample) (timeThreshold : ℚ) : List Sample :=
  points.filter (fun p => p.travelTime.getD 0 ≤ timeThreshold)

/-- Embedding of `calculateIsochroneForThreshold(origin, points,
timeThreshold)` from isochroneGenerator.ts.  `concaveFn maxEdge pts`
models `turf.concave(pts, maxEdge, 'kilometers')` and `convexFn pts`
models `turf.convex(pts)`: `Except.error ()` is a thrown exception
(caught by the source's try/catch), `Except.ok none` is a `null` return
(Turf's documented "unable to compute hull" result, which the source
returns unchanged), `Except.ok (some g)` is a hull polygon.  The
`if (origin)` guards of the source are always taken because the `origin`
parameter has non-nullable type `Feature<Point>`; `turf.circle` is called
without a `steps` option, i.e. with Turf's default of 64 segments. -/
def calculateIsochroneForThreshold
    (concaveFn : ℚ → List Sample → Except Unit (Option Geo))
    (convexFn : List Sample → Except Unit (Option Geo))
    (origin : ℚ × ℚ) (points : List Sample) (timeThreshold : ℚ) : Option Geo :=
  let pointsWithinTime := qualifyingSamples points timeThreshold
  if pointsWithinTime.length ≤ 3 then
    some (Geo.circle origin (0.5 * timeThreshold / 15) 64)
  else
    match concaveFn 1 pointsWithinTime with
    | Except.ok concave => concave
    | Except.error _ =>
      match convexFn pointsWithinTime with
      | Except.ok convex => convex
      | Except.error _ =>
        some (Geo.circle origin (0.5 * timeThreshold / 15) 64)

/-- Embedding of `getColorForTime(minutes)` from isochroneGenerator.ts. -/
def getColorForTime (minutes : ℚ) : String :=
  if minutes ≤ 15 then "#1a9641"
  else if minutes ≤ 30 then "#a6d96a"
  else if minutes ≤ 45 then "#ffffc0"
  else "#fdae61"

/-! ## Per-threshold region assembly (isochroneCalculator.ts) -/

/-- Embedding of the per-threshold loop of `calculateIsochrone(stop,
connectedStops, stopsMap, timeThresholds)` from isochroneCalculator.ts.
`tinResult minutes` models the `interpolateWithTIN(pointsCollection,
minutes, cellSize)` call (closed over the stop's point collection):
`Except.ok g` is a returned geometry, `Except.error ()` a thrown
exception, caught by the source's try/catch.  On success the feature's
properties are replaced by `{ contour: minutes }`; on failure the
fallback is `turf.circle(stop, 0.5 * minutes / 15, { steps: 64,
units: 'kilometers', properties: { contour: minutes } })`.  The map runs
over `timeThresholds` in the order given by the caller. -/
def calculateIsochrone (tinResult : ℚ → Except Unit Geo)
    (stopCoord : ℚ × ℚ) (timeThresholds : List ℚ) : List IsoRegion :=
  timeThresholds.map (fun minutes =>
    match tinResult minutes with
    | Except.ok g => { geo := g, props := [(("contour"), minutes)] }
    | Except.error _ =>
      { geo := Geo.circle stopCoord (0.5 * minutes / 15) 64
        props := [(("contour"), minutes)] })

/-- The threshold list passed by the caller in pages/Index.tsx:
`[15, 30, 45, 60].filter(time => time <= timeRadiusMinutes)`. -/
def indexThresholds (timeRadiusMinutes : ℚ) : List ℚ :=
  [15, 30, 45, 60].filter (fun time => time ≤ timeRadiusMinutes)

/-! ## Radial simulation sampler (pointGeneration.ts) -/

/-- The option record of isochroneUtils/types.ts; every field is
optional. -/
structure IsochroneOptions where
  maxDistance : Option ℚ
  numRadials : Option ℕ
  pointsPerRadial : Option ℕ
  averageSpeedKmh : Option ℚ

/-- The `DEFAULT_OPTIONS` constant of isochroneUtils/types.ts. -/
def DEFAULT_OPTIONS : IsochroneOptions :=
  { maxDistance := some 15
    numRadials := some 24
    pointsPerRadial := some 10
    averageSpeedKmh := some 30 }

/-- Destructuring default `maxDistance = DEFAULT_OPTIONS.maxDistance!` in
`generateSimulatedPoints` (the inner `getD 0` realises the non-null
assertion `!`, never exercised because the default is `some 15`). -/
def resolvedMaxDistance (options : IsochroneOptions) : ℚ :=
  options.maxDistance.getD (DEFAULT_OPTIONS.maxDistance.getD 0)

/-- Destructuring default for `numRadials`. -/
def resolvedNumRadials (options : IsochroneOptions) : ℕ :=
  options.numRadials.getD (DEFAULT_OPTIONS.numRadials.getD 0)

/-- Destructuring default for `pointsPerRadial`. -/
def resolvedPointsPerRadial (options : IsochroneOptions) : ℕ :=
  options.pointsPerRadial.getD (DEFAULT_OPTIONS.pointsPerRadial.getD 0)

/-- Destructuring default for `averageSpeedKmh`. -/
def resolvedAverageSpeedKmh (options : IsochroneOptions) : ℚ :=
  options.averageSpeedKmh.getD (DEFAULT_OPTIONS.averageSpeedKmh.getD 0)

/-- Embedding of `calculateSimulatedTravelTime(distance, averageSpeedKmh)`
from pointGeneration.ts: `(distance / averageSpeedKmh) * 60`. -/
def calculateSimulatedTravelTime (distance averageSpeedKmh : ℚ) : ℚ :=
  distance / averageSpeedKmh * 60

/-- Embedding of `generateSimulatedPoints(origin, options)` from
pointGeneration.ts.  `dest o d b` models the external geodesic call
`turf.destination(origin, d, b, 'kilometers')`.  The origin feature is
pushed unchanged (the source sets no `travelTime` on it), then for each
of `numRadials` bearings and each `j = 1 .. pointsPerRadial` a point at
distance `(j / pointsPerRadial) * maxDistance` is pushed with travel time
`calculateSimulatedTravelTime distance averageSpeedKmh`. -/
def generateSimulatedPoints (dest : ℚ × ℚ → ℚ → ℚ → ℚ × ℚ)
    (origin : Sample) (options : IsochroneOptions) : List Sample :=
  let maxDistance := resolvedMaxDistance options
  let numRadials := resolvedNumRadials options
  let pointsPerRadial := resolvedPointsPerRadial options
  let averageSpeedKmh := resolvedAverageSpeedKmh options
  origin ::
    (List.range numRadials).flatMap (fun i =>
      (List.range pointsPerRadial).map (fun j0 =>
        let j : ℕ := j0 + 1
        let bearing := (i : ℚ) * 360 / (numRadials : ℚ)
        let distance := (j : ℚ) / (pointsPerRadial : ℚ) * maxDistance
        { pt := dest origin.pt distance bearing
          travelTime := some (calculateSimulatedTravelTime distance averageSpeedKmh) }))

/-! ## TIN interpolation (isochroneCalculator.ts, interpolateWithTIN) -/

/-- A vertex of the triangulated irregular network: coordinates plus the
anchor's travel time (Turf's `tin` stores the three source points of each
triangle in `triangle.properties.points`). -/
structure TinPoint where
  pt : ℚ × ℚ
  travelTime : ℚ
  deriving DecidableEq

/-- A triangle of the TIN together with its three source points. -/
structure Triangle where
  p1 : TinPoint
  p2 : TinPoint
  p3 : TinPoint
  deriving DecidableEq

/-- Embedding of the helper `pointInTriangle(point, v1, v2, v3)` of
isochroneCalculator.ts (barycentric sign test).  Division is exact
rational division; for a degenerate triangle the source computes with
`Infinity` where ℚ yields `1 / 0 = 0` — no claim touches that case. -/
def pointInTriangle (point v1 v2 v3 : ℚ × ℚ) : Bool :=
  let v0 := (v3.1 - v1.1, v3.2 - v1.2)
  let v2v := (v2.1 - v1.1, v2.2 - v1.2)
  let pv := (point.1 - v1.1, point.2 - v1.2)
  let dot00 := v0.1 * v0.1 + v0.2 * v0.2
  let dot01 := v0.1 * v2v.1 + v0.2 * v2v.2
  let dot02 := v0.1 * pv.1 + v0.2 * pv.2
  let dot11 := v2v.1 * v2v.1 + v2v.2 * v2v.2
  let dot12 := v2v.1 * pv.1 + v2v.2 * pv.2
  let invDenom := 1 / (dot00 * dot11 - dot01 * dot01)
  let u := (dot11 * dot02 - dot01 * dot12) * invDenom
  let v := (dot00 * dot12 - dot01 * dot02) * invDenom
  decide (0 ≤ u) && decide (0 ≤ v) && decide (u + v ≤ 1)

/-- Embedding of the per-grid-point interpolation rule inside
`interpolateWithTIN`: scan the TIN's triangle list in order, and at the
first triangle containing the query point return the `reduce`-average
`(0 + t1 + t2 + t3) / 3` of the three vertex travel times; when no
triangle contains the point the source falls back to inverse-distance-
squared weighting over the 3 nearest anchors, a computation on external
geodesic distances modelled by the `idwFallback` parameter. -/
def interpolateAtPoint (tin : List Triangle) (idwFallback : ℚ × ℚ → ℚ)
    (coord : ℚ × ℚ) : ℚ :=
  match tin.find? (fun tr => pointInTriangle coord tr.p1.pt tr.p2.pt tr.p3.pt) with
  | some tr => (0 + tr.p1.travelTime + tr.p2.travelTime + tr.p3.travelTime) / 3
  | none => idwFallback coord

/-! ## Connectivity search (gtfsParser.ts, getConnectedStops) -/

/-- One `StopTime` record as consumed by `getConnectedStops`; `dep` is
`parseTimeToMinutes(departure_time)`, the only use the function makes of
the record's time fields (minutes past midnight, possibly fractional). -/
structure StopTime where
  trip_id : String
  stop_id : String
  dep : ℚ
  deriving DecidableEq

/-- The `connectedStops : Map<string, number>` accumulator, viewed as a
partial map from stop id to travel time. -/
abbrev TravelMap := String → Option ℚ

/-- The body of the `if (!connectedStops.has(id) || connectedStops.get(id)!
> travelTime) connectedStops.set(id, travelTime)` update. -/
def insertMin (m : TravelMap) (k : String) (v : ℚ) : TravelMap :=
  fun s =>
    if s = k then
      match m k with
      | none => some v
      | some w => if w > v then some v else some w
    else m s

/-- The forward loop of `getConnectedStops` (indices after the origin,
elapsed `currentStopTime - departureTime`), including the `break` once
the elapsed time exceeds the radius. -/
def walkFwd (departureTime timeRadius : ℚ) :
    List StopTime → TravelMap → TravelMap
  | [], m => m
  | st :: rest, m =>
    if st.dep - departureTime ≤ timeRadius then
      walkFwd departureTime timeRadius rest
        (insertMin m st.stop_id (st.dep - departureTime))
    else m

/-- The backward loop of `getConnectedStops` (indices before the origin
in descending order, elapsed `departureTime - currentStopTime`),
including the `break`. -/
def walkBwd (departureTime timeRadius : ℚ) :
    List StopTime → TravelMap → TravelMap
  | [], m => m
  | st :: rest, m =>
    if departureTime - st.dep ≤ timeRadius then
      walkBwd departureTime timeRadius rest
        (insertMin m st.stop_id (departureTime - st.dep))
    else m

/-- Variant of the forward loop that examines every visit and keeps only
those within the radius (no early `break`); used to state that the early
exit is harmless on time-sorted trips. -/
def walkFwdNoBreak (departureTime timeRadius : ℚ) :
    List StopTime → TravelMap → TravelMap
  | [], m => m
  | st :: rest, m =>
    walkFwdNoBreak departureTime timeRadius rest
      (if st.dep - departureTime ≤ timeRadius then
        insertMin m st.stop_id (st.dep - departureTime)
      else m)

/-- Variant of the backward loop without the early `break`. -/
def walkBwdNoBreak (departureTime timeRadius : ℚ) :
    List StopTime → TravelMap → TravelMap
  | [], m => m
  | st :: rest, m =>
    walkBwdNoBreak departureTime timeRadius rest
      (if departureTime - st.dep ≤ timeRadius then
        insertMin m st.stop_id (departureTime - st.dep)
      else m)

/-- Order used by the source's `.sort((a, b) => parse(a.departure_time) -
parse(b.departure_time))`. -/
def depLe (a b : StopTime) : Prop := a.dep ≤ b.dep

instance : DecidableRel depLe :=
  fun a b => inferInstanceAs (Decidable (a.dep ≤ b.dep))

instance : IsTotal StopTime depLe := ⟨fun a b => le_total a.dep b.dep⟩

instance : IsTrans StopTime depLe := ⟨fun _ _ _ h1 h2 => le_trans h1 h2⟩

/-- The `stopsOnTrip` list: all records of one trip, sorted by departure
time ascending (stable, as mandated for `Array.prototype.sort`). -/
def sortedTrip (stopTimes : List StopTime) (tripId : String) : List StopTime :=
  List.insertionSort depLe (stopTimes.filter (fun st => st.trip_id = tripId))

/-- The body of the `tripsThroughStop.forEach` loop of
`getConnectedStops`: locate the origin's index with `findIndex` (the
first index whose stop id equals the origin), then run the forward walk
over the indices after it and the backward walk over the indices before
it, both with the occurrence's own departure time. -/
def processOccurrence (startStopId : String) (stopTimes : List StopTime)
    (timeRadius : ℚ) (m : TravelMap) (occ : StopTime) : TravelMap :=
  let stopsOnTrip := sortedTrip stopTimes occ.trip_id
  match List.findIdx? (fun st => st.stop_id = startStopId) stopsOnTrip with
  | none => m
  | some startStopIndex =>
    walkBwd occ.dep timeRadius ((stopsOnTrip.take startStopIndex).reverse)
      (walkFwd occ.dep timeRadius (stopsOnTrip.drop (startStopIndex + 1)) m)

/-- Embedding of `getConnectedStops(startStopId, stopTimes, trips,
routes, timeRadius)` from gtfsParser.ts (the `trips` and `routes`
parameters are unused by the source body).  Returns the accumulated
stop-id → minimal-travel-time map; the source's final conversion of the
`Map` to an entry array carries the same association. -/
def getConnectedStops (startStopId : String) (stopTimes : List StopTime)
    (timeRadius : ℚ) : TravelMap :=
  (stopTimes.filter (fun st => st.stop_id = startStopId)).foldl
    (processOccurrence startStopId stopTimes timeRadius) (fun _ => none)

/-- Occurrence processing as worded by the specification (§4.2): walk
forward and backward from the occurrence's own position in the trip's
time-sorted visit sequence ("treat each occurrence independently"), with
the same early exit.  The only difference from `processOccurrence` is
the located index: the occurrence's own index instead of the first index
carrying the origin's stop id. -/
def processOccurrenceSpec (startStopId : String) (stopTimes : List StopTime)
    (timeRadius : ℚ) (m : TravelMap) (occ : StopTime) : TravelMap :=
  let stopsOnTrip := sortedTrip stopTimes occ.trip_id
  match List.findIdx? (fun st => st = occ) stopsOnTrip with
  | none => m
  | some i =>
    walkBwd occ.dep timeRadius ((stopsOnTrip.take i).reverse)
      (walkFwd occ.dep timeRadius (stopsOnTrip.drop (i + 1)) m)

/-- Reference model of `findReachable(originStopId, timeBudgetMinutes)`
following the specification's wording of §4.2: every origin occurrence
is walked from its own position, the minimum elapsed time is retained,
and the origin itself is excluded from the result. -/
def findReachableSpec (startStopId : String) (stopTimes : List StopTime)
    (timeRadius : ℚ) : TravelMap :=
  let m := (stopTimes.filter (fun st => st.stop_id = startStopId)).foldl
    (processOccurrenceSpec startStopId stopTimes timeRadius) (fun _ => none)
  fun s => if s = startStopId then none else m s

/-- Schedules in which the origin stop appears at most once in any one
trip's visit list (no loop trips through the origin). -/
def noLoopOrigin (startStopId : String) (stopTimes : List StopTime) : Prop :=
  ∀ st ∈ stopTimes, st.stop_id = startStopId →
    ((stopTimes.filter (fun x => x.trip_id = st.trip_id)).countP
      (fun x => x.stop_id = startStopId)) ≤ 1

instance (startStopId : String) (stopTimes : List StopTime) :
    Decidable (noLoopOrigin startStopId stopTimes) :=
  List.decidableBAll _ stopTimes

/-! ## Time-string utilities (gtfsUtils/timeUtils.ts) -/

/-- JavaScript number-to-integer truncation (toward zero), as performed
by the `%` remainder operator on its operands' quotient. -/
def jsTrunc (q : ℚ) : ℤ :=
  if 0 ≤ q then ⌊q⌋ else -⌊-q⌋

/-- JavaScript remainder `a % b` (sign of the dividend):
`a - b * trunc(a / b)`.  (For `b = 0` JavaScript yields NaN; the source
only uses `% 60` and `% 1`.) -/
def jsMod (a b : ℚ) : ℚ :=
  a - b * jsTrunc (a / b)

/-- Decimal digits of a natural number, most significant first, as
produced by JavaScript `Number.prototype.toString()` for integral
values. -/
def natToDigits (n : ℕ) : List Char :=
  if h : n < 10 then [Nat.digitChar n]
  else natToDigits (n / 10) ++ [Nat.digitChar (n % 10)]
  termination_by n
  decreasing_by
    exact Nat.div_lt_self (by omega) (by omega)

/-- JavaScript `toString()` of an integer-valued number. -/
def intToChars (n : ℤ) : List Char :=
  if n < 0 then ('-') :: natToDigits n.natAbs else natToDigits n.toNat

/-- JavaScript `padStart(2, '0')`. -/
def padStart2 (cs : List Char) : List Char :=
  if cs.length < 2 then List.replicate (2 - cs.length) ('0') ++ cs else cs

/-- Embedding of `formatMinutesToTime(minutes)` from timeUtils.ts:
`hours = Math.floor(minutes / 60)`, `mins = Math.floor(minutes % 60)`,
`secs = Math.floor((minutes % 1) * 60)`, each rendered with
`toString().padStart(2, '0')` and joined with colons. -/
def formatMinutesToTime (minutes : ℚ) : String :=
  let hours : ℤ := ⌊minutes / 60⌋
  let mins : ℤ := ⌊jsMod minutes 60⌋
  let secs : ℤ := ⌊jsMod minutes 1 * 60⌋
  String.mk (padStart2 (intToChars hours) ++ (':') ::
    (padStart2 (intToChars mins) ++ (':') :: padStart2 (intToChars secs)))

/-- JavaScript `String.prototype.split(sep)` on a character list. -/
def splitOnChar (sep : Char) : List Char → List (List Char)
  | [] => [[]]
  | c :: cs =>
    let r := splitOnChar sep cs
    if c = sep then [] :: r
    else
      match r with
      | [] => [[c]]
      | p :: ps => (c :: p) :: ps

/-- Value of a decimal digit string (fold of `10 * acc + digit`). -/
def digitsToNat (cs : List Char) : ℕ :=
  cs.foldl (fun acc c => 10 * acc + (c.toNat - 48)) 0

/-- JavaScript `Number(s)` restricted to the non-negative decimal integer
strings produced by `formatMinutesToTime` (the only strings the
round-trip claim feeds to the parser). -/
def charsToNumber (cs : List Char) : ℚ :=
  (digitsToNat cs : ℚ)

/-- Embedding of `parseTimeToMinutes(timeStr)` from timeUtils.ts:
`const [hours, minutes, seconds] = timeStr.split(':').map(Number)` and
`hours * 60 + minutes + (seconds ? seconds / 60 : 0)`.  A missing field
is NaN in JavaScript; the embedding totalises it with 0, outside the
modelled domain of three-field time strings. -/
def parseTimeToMinutes (timeStr : String) : ℚ :=
  let parts := (splitOnChar (':') timeStr.data).map charsToNumber
  let hours := parts.getD 0 0
  let minutes := parts.getD 1 0
  let seconds := parts.getD 2 0
  hours * 60 + minutes + (if seconds ≠ 0 then seconds / 60 else 0)

/-! ## Concrete instances used by the claims -/

/-- Trip "T1" through origin "O" with departure offsets 0, 5, 12 and 20
minutes to stops "A", "B" and "C" (base time 08:00 = 480 minutes). -/
def schedScenario : List StopTime :=
  [⟨"T1", "O", 480⟩, ⟨"T1", "A", 485⟩, ⟨"T1", "B", 492⟩, ⟨"T1", "C", 500⟩]

/-- The mapping {A ↦ 5, B ↦ 12} expected for `findReachable("O", 15)` on
`schedScenario`. -/
def scenarioExpected : TravelMap :=
  fun s => if s = "A" then some 5 else if s = "B" then some 12 else none

/-- A loop trip through the origin: "O" is visited at 08:00 and again at
08:10, with "A" in between. -/
def schedLoop : List StopTime :=
  [⟨"T", "O", 480⟩, ⟨"T", "A", 485⟩, ⟨"T", "O", 490⟩]

/-- Four qualifying samples (travel times 1, 2, 3, 4 ≤ 30). -/
def samples4 : List Sample :=
  [⟨(0, 0), some 1⟩, ⟨(1, 0), some 2⟩, ⟨(0, 1), some 3⟩, ⟨(1, 1), some 4⟩]

/-- Four qualifying samples (travel times 2, 3, 4, 5 ≤ 30). -/
def samples6 : List Sample :=
  [⟨(0, 0), some 2⟩, ⟨(2, 0), some 3⟩, ⟨(0, 2), some 4⟩, ⟨(2, 2), some 5⟩]

/-- A one-triangle TIN whose anchors carry travel times 0, 30 and 60;
the anchor at the origin of coordinates has recorded travel time 0. -/
def tinC2 : List Triangle :=
  [⟨⟨(0, 0), 0⟩, ⟨(1, 0), 30⟩, ⟨(0, 1), 60⟩⟩]

/-- A one-triangle TIN whose three anchors all carry travel time 5. -/
def tinEqual : List Triangle :=
  [⟨⟨(0, 0), 5⟩, ⟨(1, 0), 5⟩, ⟨(0, 1), 5⟩⟩]

/-- A concrete destination oracle: records the distance and bearing
arguments as the produced coordinates. -/
def destW : ℚ × ℚ → ℚ → ℚ → ℚ × ℚ :=
  fun _ distance bearing => (distance, bearing)

/-- An origin feature whose caller-supplied travel time is 7 minutes. -/
def originW : Sample := ⟨(99, 99), some 7⟩

/-- Options selecting a single radial with a single point. -/
def optsW : IsochroneOptions := ⟨some 15, some 1, some 1, some 30⟩

/-! ## Claim C3: threshold processing order -/

/-- C3 (amended): `calculateIsochrone` performs no sort of its threshold
list; regions are produced in exactly the order the thresholds are
given, each tagged with its threshold as the `contour` property, and the
caller in Index.tsx passes `[15, 30, 45, 60].filter(t => t <= budget)`,
which for budget 30 is the ascending list [15, 30]. -/
theorem C3_amended :
    ∀ (tinResult : ℚ → Except Unit Geo) (stopCoord : ℚ × ℚ)
      (timeThresholds : List ℚ),
      (calculateIsochrone tinResult stopCoord timeThresholds).map contourOf
        = timeThresholds.map some
      ∧ indexThresholds 30 = [15, 30] := by
  intro tinResult stopCoord timeThresholds
  constructor
  · induction timeThresholds with
    | nil => rfl
    | cons t ts ih =>
      simp only [calculateIsochrone, List.map_cons, List.map_map] at ih ⊢
      cases h : tinResult t <;>
        simp only [h, ih] <;>
        simp [contourOf]
  · decide

/-- C3 counterexample: for the caller's threshold list at budget 30
(namely [15, 30]) the output regions carry contours [15, 30] — the
15-minute region first — and not the descending order [30, 15] stated by
the claim. -/
theorem C3_counterexample :
    (calculateIsochrone (fun _ => Except.error ()) (0, 0)
        (indexThresholds 30)).map contourOf = [some 15, some 30]
    ∧ [some (15:ℚ), some 30] ≠ [some 30, some 15] := by
  constructor
  · decide
  · decide

/-! ## Claim C9: region tagging and the colour palette -/

/-- C9 (amended): every region produced by `calculateIsochrone` is
tagged only with its threshold (its property list has the single key
"contour"); no `originStopId` or `color` is attached to the polygon.
The palette function `getColorForTime` of isochroneGenerator.ts is a
pure four-bucket lookup — green `#1a9641` for ≤ 15 minutes, light green
`#a6d96a` for ≤ 30, pale yellow `#ffffc0` for ≤ 45, orange `#fdae61`
beyond — and only ever returns one of those four constants, never an
interpolated colour. -/
theorem C9_amended :
    (∀ (tinResult : ℚ → Except Unit Geo) (stopCoord : ℚ × ℚ)
       (timeThresholds : List ℚ),
       ∀ r ∈ calculateIsochrone tinResult stopCoord timeThresholds,
         r.props.map Prod.fst = ["contour"])
    ∧ (∀ minutes : ℚ,
        (minutes ≤ 15 → getColorForTime minutes = "#1a9641")
        ∧ (¬ minutes ≤ 15 → minutes ≤ 30 → getColorForTime minutes = "#a6d96a")
        ∧ (¬ minutes ≤ 15 → ¬ minutes ≤ 30 → minutes ≤ 45 →
            getColorForTime minutes = "#ffffc0")
        ∧ (¬ minutes ≤ 15 → ¬ minutes ≤ 30 → ¬ minutes ≤ 45 →
            getColorForTime minutes = "#fdae61"))
    ∧ (∀ minutes : ℚ,
        getColorForTime minutes ∈ ["#1a9641", "#a6d96a", "#ffffc0", "#fdae61"]) := by
  refine ⟨?_, ?_, ?_⟩
  · intro tinResult stopCoord timeThresholds r hr
    simp only [calculateIsochrone, List.mem_map] at hr
    obtain ⟨m, _, rfl⟩ := hr
    cases tinResult m <;> rfl
  · intro minutes
    refine ⟨fun h1 => ?_, fun h1 h2 => ?_, fun h1 h2 h3 => ?_, fun h1 h2 h3 => ?_⟩ <;>
      simp [getColorForTime, *]
  · intro minutes
    unfold getColorForTime
    split_ifs <;> simp

/-- C9 witness: a concrete region of `calculateIsochrone` has property
keys exactly ["contour"], and the palette returns green for 10
minutes. -/
theorem C9_witness :
    (⟨Geo.shape 0, [(("contour"), (15:ℚ))]⟩ : IsoRegion)
      ∈ calculateIsochrone (fun _ => Except.ok (Geo.shape 0)) (0, 0) [15]
    ∧ (⟨Geo.shape 0, [(("contour"), (15:ℚ))]⟩ : IsoRegion).props.map Prod.fst
        = ["contour"]
    ∧ getColorForTime 10 = "#1a9641" :=
  ⟨by decide,
    C9_amended.1 (fun _ => Except.ok (Geo.shape 0)) (0, 0) [15] _ (by decide),
    (C9_amended.2.1 10).1 (by decide)⟩

/-- C9 counterexample: the region computed for threshold 15 carries no
`color` and no `originStopId` property — its only tag is
`contour = 15` — refuting the claim that every resulting polygon is
tagged with {threshold, originStopId, color}. -/
theorem C9_counterexample :
    (calculateIsochrone (fun _ => Except.ok (Geo.shape 0)) (0, 0) [15]).map
      (fun r => (r.props.lookup ("color"), r.props.lookup ("originStopId"),
        r.props.lookup ("contour")))
      = [(none, none, some 15)] := by
  decide

/-! ## Claim C4: circle fallback of the contour extractor -/

/-- C4 (amended): when at most 3 samples qualify,
`calculateIsochroneForThreshold` returns the circle centred on the
origin with radius `0.5 * threshold / 15` kilometres (so 1.0 km at
threshold 30 and 2.0 km at threshold 60, with Turf's default 64
segments); and the extractor's result is non-empty provided neither
hull strategy reports failure by returning null (`Except.ok none`).
The unconditional never-empty part of the original claim is refuted by
`C4_counterexample`. -/
theorem C4_amended :
    ∀ (concaveFn : ℚ → List Sample → Except Unit (Option Geo))
      (convexFn : List Sample → Except Unit (Option Geo))
      (origin : ℚ × ℚ) (points : List Sample) (timeThreshold : ℚ),
      ((qualifyingSamples points timeThreshold).length ≤ 3 →
        calculateIsochroneForThreshold concaveFn convexFn origin points timeThreshold
          = some (Geo.circle origin (0.5 * timeThreshold / 15) 64))
      ∧ ((0.5 * (30:ℚ) / 15 = 1) ∧ (0.5 * (60:ℚ) / 15 = 2))
      ∧ ((∀ e pts, concaveFn e pts ≠ Except.ok none) →
         (∀ pts, convexFn pts ≠ Except.ok none) →
         (calculateIsochroneForThreshold concaveFn convexFn origin points
            timeThreshold).isSome = true) := by
  intro concaveFn convexFn origin points timeThreshold
  refine ⟨?_, ⟨by norm_num, by norm_num⟩, ?_⟩
  · intro h
    simp [calculateIsochroneForThreshold, h]
  · intro hc hv
    unfold calculateIsochroneForThreshold
    by_cases h : (qualifyingSamples points timeThreshold).length ≤ 3
    · simp [h]
    · simp only [h, if_false]
      cases hcv : concaveFn 1 (qualifyingSamples points timeThreshold) with
      | ok g =>
        cases g with
        | none => exact absurd hcv (hc _ _)
        | some g' => simp
      | error e =>
        cases hvv : convexFn (qualifyingSamples points timeThreshold) with
        | ok g =>
          cases g with
          | none => exact absurd hvv (hv _)
          | some g' => simp
        | error e' => simp

/-- C4 witness: with no samples at all (0 ≤ 3 qualify) and threshold 30
the extractor returns the origin-centred circle of radius
`0.5 * 30 / 15`. -/
theorem C4_witness :
    (qualifyingSamples [] (30:ℚ)).length ≤ 3
    ∧ calculateIsochroneForThreshold (fun _ _ => Except.error ())
        (fun _ => Except.error ()) (0, 0) [] 30
        = some (Geo.circle (0, 0) (0.5 * 30 / 15) 64) :=
  ⟨by decide,
    (C4_amended (fun _ _ => Except.error ()) (fun _ => Except.error ())
      (0, 0) [] 30).1 (by decide)⟩

/-- C4 counterexample: with four qualifying samples and a concave-hull
strategy that reports failure by returning null (Turf's documented
behaviour), the extractor returns nothing at all — refuting the claim
that it never returns an empty polygon. -/
theorem C4_counterexample :
    calculateIsochroneForThreshold (fun _ _ => Except.ok none)
      (fun _ => Except.ok none) (0, 0) samples4 30 = none := by
  decide

/-! ## Claim C6: fallback chain of the contour extractor -/

/-- C6 (amended): with more than 3 qualifying samples the strategies are
tried in the fixed order concave hull (maximum edge length 1 km), then
convex hull, then origin-centred circle; a strategy failure signalled by
an exception is caught and control falls to the next strategy, and no
error ever reaches the caller (the embedding is a total function).
However, a strategy "failure" signalled by a null return is passed
through to the caller unchanged, so the extractor can return nothing —
refuted unconditionally in `C6_counterexample`. -/
theorem C6_amended :
    ∀ (concaveFn : ℚ → List Sample → Except Unit (Option Geo))
      (convexFn : List Sample → Except Unit (Option Geo))
      (origin : ℚ × ℚ) (points : List Sample) (timeThreshold : ℚ),
      3 < (qualifyingSamples points timeThreshold).length →
      ((∀ g, concaveFn 1 (qualifyingSamples points timeThreshold) = Except.ok g →
          calculateIsochroneForThreshold concaveFn convexFn origin points
            timeThreshold = g)
      ∧ (concaveFn 1 (qualifyingSamples points timeThreshold) = Except.error () →
          ∀ g, convexFn (qualifyingSamples points timeThreshold) = Except.ok g →
          calculateIsochroneForThreshold concaveFn convexFn origin points
            timeThreshold = g)
      ∧ (concaveFn 1 (qualifyingSamples points timeThreshold) = Except.error () →
          convexFn (qualifyingSamples points timeThreshold) = Except.error () →
          calculateIsochroneForThreshold concaveFn convexFn origin points
            timeThreshold
            = some (Geo.circle origin (0.5 * timeThreshold / 15) 64))) := by
  intro concaveFn convexFn origin points timeThreshold hlen
  have hnot : ¬ (qualifyingSamples points timeThreshold).length ≤ 3 := by omega
  refine ⟨?_, ?_, ?_⟩
  · intro g hg
    simp [calculateIsochroneForThreshold, hnot, hg]
  · intro hc g hg
    simp [calculateIsochroneForThreshold, hnot, hc, hg]
  · intro hc hv
    simp [calculateIsochroneForThreshold, hnot, hc, hv]

/-- C6 witness: with four qualifying samples and both hull strategies
throwing, the extractor falls through the whole chain and returns the
terminal circle. -/
theorem C6_witness :
    3 < (qualifyingSamples samples4 (30:ℚ)).length
    ∧ calculateIsochroneForThreshold (fun _ _ => Except.error ())
        (fun _ => Except.error ()) (0, 0) samples4 30
        = some (Geo.circle (0, 0) (0.5 * 30 / 15) 64) :=
  ⟨by decide,
    (C6_amended (fun _ _ => Except.error ()) (fun _ => Except.error ())
      (0, 0) samples4 30 (by decide)).2.2 rfl rfl⟩

/-- C6 counterexample: the concave hull throws, the convex hull reports
failure by returning null, and the extractor returns nothing — the
convex-hull failure is not recovered by falling to the circle strategy,
refuting the claim that a failure of any single strategy falls to the
next one and that the extractor never returns nothing. -/
theorem C6_counterexample :
    calculateIsochroneForThreshold (fun _ _ => Except.error ())
      (fun _ => Except.ok none) (0, 0) samples6 30 = none := by
  decide

/-! ## Claim C2: interpolation at anchor points -/

/-- C2 (amended): at any query point (in particular an anchor's own
coordinates), when a triangle of the TIN contains the point, the
interpolation returns the plain arithmetic mean of that triangle's three
vertex travel times — not the anchor's own value.  It is exact at an
anchor only in the degenerate situation that the three vertex times
coincide, in which case the mean collapses to that common value. -/
theorem C2_amended :
    ∀ (tin : List Triangle) (idwFallback : ℚ × ℚ → ℚ) (coord : ℚ × ℚ)
      (tr : Triangle),
      tin.find? (fun t => pointInTriangle coord t.p1.pt t.p2.pt t.p3.pt)
        = some tr →
      interpolateAtPoint tin idwFallback coord
        = (tr.p1.travelTime + tr.p2.travelTime + tr.p3.travelTime) / 3
      ∧ (∀ t0 : ℚ, tr.p1.travelTime = t0 → tr.p2.travelTime = t0 →
          tr.p3.travelTime = t0 →
          interpolateAtPoint tin idwFallback coord = t0) := by
  intro tin idwFallback coord tr h
  constructor
  · simp only [interpolateAtPoint, h]
    ring
  · intro t0 h1 h2 h3
    simp only [interpolateAtPoint, h, h1, h2, h3]
    ring

/-- C2 witness: on a TIN whose triangle has all three vertex times equal
to 5, querying at the vertex (0, 0) locates the triangle and returns
exactly 5. -/
theorem C2_witness :
    tinEqual.find? (fun t => pointInTriangle (0, 0) t.p1.pt t.p2.pt t.p3.pt)
      = some ⟨⟨(0, 0), 5⟩, ⟨(1, 0), 5⟩, ⟨(0, 1), 5⟩⟩
    ∧ interpolateAtPoint tinEqual (fun _ => 0) (0, 0) = 5 := by
  refine ⟨by with_unfolding_all decide, ?_⟩
  exact (C2_amended tinEqual (fun _ => 0) (0, 0)
    ⟨⟨(0, 0), 5⟩, ⟨(1, 0), 5⟩, ⟨(0, 1), 5⟩⟩
    (by with_unfolding_all decide)).2 5 rfl rfl rfl

/-- C2 counterexample: in the TIN `tinC2` the anchor at coordinates
(0, 0) has recorded travel time 0, yet querying the interpolated field
at exactly those coordinates returns 30 — the mean of the enclosing
triangle's vertex times (0, 30 and 60) — refuting exactness at anchor
points. -/
theorem C2_counterexample :
    tinC2 = [⟨⟨(0, 0), 0⟩, ⟨(1, 0), 30⟩, ⟨(0, 1), 60⟩⟩]
    ∧ interpolateAtPoint tinC2 (fun _ => 0) (0, 0) = 30
    ∧ (30 : ℚ) ≠ 0 := by
  refine ⟨rfl, by with_unfolding_all decide, by norm_num⟩

/-! ## Claim C7: radial simulation sampler -/

/-- C7 (amended): `generateSimulatedPoints` always emits the origin
feature first, unchanged — with whatever travel time the caller attached
to it, not a forced 0 — and every other emitted sample lies on radial
`i < numRadials` at distance `(j / pointsPerRadial) * maxDistance`
kilometres for some `1 ≤ j ≤ pointsPerRadial`, carrying travel time
`distance / averageSpeedKmh * 60` minutes; the defaults are
maxDistance = 15, numRadials = 24, pointsPerRadial = 10,
averageSpeedKmh = 30. -/
theorem C7_amended :
    ∀ (dest : ℚ × ℚ → ℚ → ℚ → ℚ × ℚ) (origin : Sample)
      (options : IsochroneOptions),
      (generateSimulatedPoints dest origin options).head? = some origin
      ∧ (∀ s ∈ (generateSimulatedPoints dest origin options).tail,
          ∃ i j : ℕ, i < resolvedNumRadials options ∧ 1 ≤ j
            ∧ j ≤ resolvedPointsPerRadial options
            ∧ s = ⟨dest origin.pt
                    ((j : ℚ) / (resolvedPointsPerRadial options : ℚ)
                      * resolvedMaxDistance options)
                    ((i : ℚ) * 360 / (resolvedNumRadials options : ℚ)),
                  some (calculateSimulatedTravelTime
                    ((j : ℚ) / (resolvedPointsPerRadial options : ℚ)
                      * resolvedMaxDistance options)
                    (resolvedAverageSpeedKmh options))⟩)
      ∧ DEFAULT_OPTIONS.maxDistance = some 15
      ∧ DEFAULT_OPTIONS.numRadials = some 24
      ∧ DEFAULT_OPTIONS.pointsPerRadial = some 10
      ∧ DEFAULT_OPTIONS.averageSpeedKmh = some 30 := by
  intro dest origin options
  refine ⟨rfl, ?_, rfl, rfl, rfl, rfl⟩
  intro s hs
  simp only [generateSimulatedPoints, List.tail_cons, List.mem_flatMap,
    List.mem_map, List.mem_range] at hs
  obtain ⟨i, hi, j0, hj0, rfl⟩ := hs
  exact ⟨i, j0 + 1, hi, by omega, by omega, rfl⟩

/-- C7 witness: for one radial with one point, speed 30 km/h and radius
15 km, the single generated sample is the point recorded at distance 15
and bearing 0 with travel time 30 minutes, and it satisfies the radial
formula with i = 0, j = 1. -/
theorem C7_witness :
    (⟨((15:ℚ), (0:ℚ)), some (30:ℚ)⟩ : Sample)
      ∈ (generateSimulatedPoints destW originW optsW).tail
    ∧ ∃ i j : ℕ, i < resolvedNumRadials optsW ∧ 1 ≤ j
        ∧ j ≤ resolvedPointsPerRadial optsW
        ∧ (⟨((15:ℚ), (0:ℚ)), some (30:ℚ)⟩ : Sample)
            = ⟨destW originW.pt
                ((j : ℚ) / (resolvedPointsPerRadial optsW : ℚ)
                  * resolvedMaxDistance optsW)
                ((i : ℚ) * 360 / (resolvedNumRadials optsW : ℚ)),
              some (calculateSimulatedTravelTime
                ((j : ℚ) / (resolvedPointsPerRadial optsW : ℚ)
                  * resolvedMaxDistance optsW)
                (resolvedAverageSpeedKmh optsW))⟩ :=
  ⟨by with_unfolding_all decide,
    (C7_amended destW originW optsW).2.1 _ (by with_unfolding_all decide)⟩

/-- C7 counterexample: when the caller attaches travel time 7 to the
origin feature, the sampler's output contains no sample at all with
travel time 0 — the origin is passed through unchanged — refuting the
claim that the sampler always includes the origin sample with travel
time 0. -/
theorem C7_counterexample :
    (generateSimulatedPoints destW originW optsW).head? = some originW
    ∧ originW.travelTime = some 7
    ∧ ∀ s ∈ generateSimulatedPoints destW originW optsW,
        s.travelTime ≠ some 0 := by
  refine ⟨rfl, rfl, by with_unfolding_all decide⟩

/-! ## Walk lemmas and claim C8: safety of the early exit -/

/-- When every remaining visit is already over budget, the exhaustive
forward walk adds nothing. -/
lemma walkFwdNoBreak_of_all_out (departureTime timeRadius : ℚ) :
    ∀ (l : List StopTime) (m : TravelMap),
      (∀ st ∈ l, ¬ (st.dep - departureTime ≤ timeRadius)) →
      walkFwdNoBreak departureTime timeRadius l m = m := by
  intro l
  induction l with
  | nil => intro m _; rfl
  | cons st rest ih =>
    intro m h
    simp only [walkFwdNoBreak]
    rw [if_neg (h st (List.mem_cons_self st rest))]
    exact ih m (fun st' hst' => h st' (List.mem_cons_of_mem st hst'))

/-- When every remaining visit is already over budget, the exhaustive
backward walk adds nothing. -/
lemma walkBwdNoBreak_of_all_out (departureTime timeRadius : ℚ) :
    ∀ (l : List StopTime) (m : TravelMap),
      (∀ st ∈ l, ¬ (departureTime - st.dep ≤ timeRadius)) →
      walkBwdNoBreak departureTime timeRadius l m = m := by
  intro l
  induction l with
  | nil => intro m _; rfl
  | cons st rest ih =>
    intro m h
    simp only [walkBwdNoBreak]
    rw [if_neg (h st (List.mem_cons_self st rest))]
    exact ih m (fun st' hst' => h st' (List.mem_cons_of_mem st hst'))

/-- On a visit list sorted by ascending departure time, the breaking
forward walk agrees with the exhaustive one. -/
lemma walkFwd_eq_noBreak (departureTime timeRadius : ℚ) :
    ∀ (l : List StopTime) (m : TravelMap), List.Pairwise depLe l →
      walkFwd departureTime timeRadius l m
        = walkFwdNoBreak departureTime timeRadius l m := by
  intro l
  induction l with
  | nil => intro m _; rfl
  | cons st rest ih =>
    intro m hp
    rw [List.pairwise_cons] at hp
    by_cases h : st.dep - departureTime ≤ timeRadius
    · simp only [walkFwd, walkFwdNoBreak, if_pos h]
      exact ih _ hp.2
    · simp only [walkFwd, walkFwdNoBreak, if_neg h]
      rw [walkFwdNoBreak_of_all_out]
      intro st' hst' hle
      exact h (by have := hp.1 st' hst'; unfold depLe at this; linarith)

/-- On a visit list sorted by descending departure time (the reversed
prefix before the origin), the breaking backward walk agrees with the
exhaustive one. -/
lemma walkBwd_eq_noBreak (departureTime timeRadius : ℚ) :
    ∀ (l : List StopTime) (m : TravelMap),
      List.Pairwise (fun a b => depLe b a) l →
      walkBwd departureTime timeRadius l m
        = walkBwdNoBreak departureTime timeRadius l m := by
  intro l
  induction l with
  | nil => intro m _; rfl
  | cons st rest ih =>
    intro m hp
    rw [List.pairwise_cons] at hp
    by_cases h : departureTime - st.dep ≤ timeRadius
    · simp only [walkBwd, walkBwdNoBreak, if_pos h]
      exact ih _ hp.2
    · simp only [walkBwd, walkBwdNoBreak, if_neg h]
      rw [walkBwdNoBreak_of_all_out]
      intro st' hst' hle
      exact h (by have := hp.1 st' hst'; unfold depLe at this; linarith)

/-- C8: on a trip whose visits are sorted ascending by departure time,
the walk pair of `getConnectedStops` (forward over the indices after the
origin, backward over the reversed prefix before it) with the early
`break` at the first over-budget visit produces exactly the same
stop-to-time mapping as walks that examine every visit and keep only
those within budget. -/
theorem C8_theorem :
    ∀ (l : List StopTime) (i : ℕ) (departureTime timeRadius : ℚ)
      (m : TravelMap),
      List.Pairwise depLe l →
      walkBwd departureTime timeRadius ((l.take i).reverse)
        (walkFwd departureTime timeRadius (l.drop (i + 1)) m)
      = walkBwdNoBreak departureTime timeRadius ((l.take i).reverse)
        (walkFwdNoBreak departureTime timeRadius (l.drop (i + 1)) m) := by
  intro l i departureTime timeRadius m hl
  have h1 : List.Pairwise depLe (l.drop (i + 1)) :=
    List.Pairwise.sublist (List.drop_sublist (i + 1) l) hl
  have h2 : List.Pairwise (fun a b => depLe b a) ((l.take i).reverse) := by
    rw [List.pairwise_reverse]
    exact List.Pairwise.sublist (List.take_sublist i l) hl
  rw [walkFwd_eq_noBreak _ _ _ _ h1, walkBwd_eq_noBreak _ _ _ _ h2]

/-- C8 witness: a concrete sorted two-visit trip processed from index 0
yields identical maps with and without the early exit. -/
theorem C8_witness :
    List.Pairwise depLe ([⟨"T", "A", 485⟩, ⟨"T", "B", 492⟩] : List StopTime)
    ∧ walkBwd 480 15
        ((([⟨"T", "A", 485⟩, ⟨"T", "B", 492⟩] : List StopTime).take 0).reverse)
        (walkFwd 480 15
          (([⟨"T", "A", 485⟩, ⟨"T", "B", 492⟩] : List StopTime).drop 1)
          (fun _ => none))
      = walkBwdNoBreak 480 15
        ((([⟨"T", "A", 485⟩, ⟨"T", "B", 492⟩] : List StopTime).take 0).reverse)
        (walkFwdNoBreak 480 15
          (([⟨"T", "A", 485⟩, ⟨"T", "B", 492⟩] : List StopTime).drop 1)
          (fun _ => none)) :=
  ⟨by decide,
    C8_theorem [⟨"T", "A", 485⟩, ⟨"T", "B", 492⟩] 0 480 15 (fun _ => none)
      (by decide)⟩

/-! ## Map-invariant lemmas for the connectivity search -/

/-- `insertMin` leaves every other key unchanged. -/
lemma insertMin_ne (m : TravelMap) (k : String) (v : ℚ) (s : String)
    (h : s ≠ k) : insertMin m k v s = m s := by
  simp [insertMin, h]

/-- A forward walk over visits none of which carry the key `s` leaves
key `s` unchanged. -/
lemma walkFwd_ne (departureTime timeRadius : ℚ) :
    ∀ (l : List StopTime) (m : TravelMap) (s : String),
      (∀ st ∈ l, st.stop_id ≠ s) →
      walkFwd departureTime timeRadius l m s = m s := by
  intro l
  induction l with
  | nil => intro m s _; rfl
  | cons st rest ih =>
    intro m s h
    simp only [walkFwd]
    by_cases hc : st.dep - departureTime ≤ timeRadius
    · rw [if_pos hc,
        ih (insertMin m st.stop_id (st.dep - departureTime)) s
          (fun st' h' => h st' (List.mem_cons_of_mem st h'))]
      exact insertMin_ne m st.stop_id _ s
        (Ne.symm (h st (List.mem_cons_self st rest)))
    · rw [if_neg hc]

/-- A backward walk over visits none of which carry the key `s` leaves
key `s` unchanged. -/
lemma walkBwd_ne (departureTime timeRadius : ℚ) :
    ∀ (l : List StopTime) (m : TravelMap) (s : String),
      (∀ st ∈ l, st.stop_id ≠ s) →
      walkBwd departureTime timeRadius l m s = m s := by
  intro l
  induction l with
  | nil => intro m s _; rfl
  | cons st rest ih =>
    intro m s h
    simp only [walkBwd]
    by_cases hc : departureTime - st.dep ≤ timeRadius
    · rw [if_pos hc,
        ih (insertMin m st.stop_id (departureTime - st.dep)) s
          (fun st' h' => h st' (List.mem_cons_of_mem st h'))]
      exact insertMin_ne m st.stop_id _ s
        (Ne.symm (h st (List.mem_cons_self st rest)))
    · rw [if_neg hc]

/-- `insertMin` with a within-budget value preserves the invariant that
every stored travel time is within the budget. -/
lemma insertMin_bound {timeRadius : ℚ} (m : TravelMap) (k : String) (v : ℚ)
    (hm : ∀ s t, m s = some t → t ≤ timeRadius) (hv : v ≤ timeRadius) :
    ∀ s t, insertMin m k v s = some t → t ≤ timeRadius := by
  intro s t h
  unfold insertMin at h
  split at h
  · split at h
    · cases h
      exact hv
    · rename_i w hmk
      split at h
      · cases h
        exact hv
      · cases h
        exact hm _ _ hmk
  · exact hm _ _ h

/-- The forward walk only ever stores within-budget travel times. -/
lemma walkFwd_bound (departureTime timeRadius : ℚ) :
    ∀ (l : List StopTime) (m : TravelMap),
      (∀ s t, m s = some t → t ≤ timeRadius) →
      ∀ s t, walkFwd departureTime timeRadius l m s = some t →
        t ≤ timeRadius := by
  intro l
  induction l with
  | nil => intro m hm; exact hm
  | cons st rest ih =>
    intro m hm s t h
    simp only [walkFwd] at h
    by_cases hc : st.dep - departureTime ≤ timeRadius
    · rw [if_pos hc] at h
      exact ih _ (insertMin_bound m st.stop_id _ hm hc) s t h
    · rw [if_neg hc] at h
      exact hm s t h

/-- The backward walk only ever stores within-budget travel times. -/
lemma walkBwd_bound (departureTime timeRadius : ℚ) :
    ∀ (l : List StopTime) (m : TravelMap),
      (∀ s t, m s = some t → t ≤ timeRadius) →
      ∀ s t, walkBwd departureTime timeRadius l m s = some t →
        t ≤ timeRadius := by
  intro l
  induction l with
  | nil => intro m hm; exact hm
  | cons st rest ih =>
    intro m hm s t h
    simp only [walkBwd] at h
    by_cases hc : departureTime - st.dep ≤ timeRadius
    · rw [if_pos hc] at h
      exact ih _ (insertMin_bound m st.stop_id _ hm hc) s t h
    · rw [if_neg hc] at h
      exact hm s t h

/-- Processing one origin occurrence preserves the within-budget
invariant. -/
lemma processOccurrence_bound (startStopId : String) (stopTimes : List StopTime)
    (timeRadius : ℚ) (m : TravelMap) (occ : StopTime)
    (hm : ∀ s t, m s = some t → t ≤ timeRadius) :
    ∀ s t, processOccurrence startStopId stopTimes timeRadius m occ s = some t →
      t ≤ timeRadius := by
  cases hidx : List.findIdx? (fun st => st.stop_id = startStopId)
      (sortedTrip stopTimes occ.trip_id) with
  | none => simpa only [processOccurrence, hidx] using hm
  | some i =>
    simp only [processOccurrence, hidx]
    exact walkBwd_bound _ _ _ _ (walkFwd_bound _ _ _ _ hm)

/-- Every travel time stored by `getConnectedStops` is within the
requested budget. -/
lemma getConnectedStops_bound (startStopId : String) (stopTimes : List StopTime)
    (timeRadius : ℚ) :
    ∀ s t, getConnectedStops startStopId stopTimes timeRadius s = some t →
      t ≤ timeRadius := by
  unfold getConnectedStops
  suffices h : ∀ (occs : List StopTime) (m : TravelMap),
      (∀ s t, m s = some t → t ≤ timeRadius) →
      ∀ s t, List.foldl (processOccurrence startStopId stopTimes timeRadius)
        m occs s = some t → t ≤ timeRadius by
    exact h _ _ (fun s t h0 => Option.noConfusion h0)
  intro occs
  induction occs with
  | nil => intro m hm; exact hm
  | cons occ rest ih =>
    intro m hm
    exact ih _ (processOccurrence_bound startStopId stopTimes timeRadius m occ hm)

/-! ## Locating the origin index -/

/-- Specification of a successful `findIndex`: the list splits at the
found index into a prefix of non-matching elements, the matching
element, and the remaining suffix. -/
lemma findIdx?_some_spec {α : Type} (p : α → Bool) :
    ∀ (l : List α) (i : ℕ), List.findIdx? p l = some i →
      ∃ x, l.drop i = x :: l.drop (i + 1) ∧ p x = true
        ∧ ∀ y ∈ l.take i, p y = false := by
  intro l
  induction l with
  | nil => intro i h; simp [List.findIdx?] at h
  | cons a l ih =>
    intro i h
    rw [List.findIdx?_cons] at h
    by_cases hpa : p a
    · rw [if_pos hpa] at h
      cases h
      exact ⟨a, rfl, hpa, by simp⟩
    · rw [if_neg hpa] at h
      rw [List.findIdx?_succ] at h
      obtain ⟨j, hj, rfl⟩ := Option.map_eq_some'.mp h
      obtain ⟨x, hdrop, hpx, htake⟩ := ih j hj
      refine ⟨x, ?_, hpx, ?_⟩
      · simpa [List.drop_succ_cons] using hdrop
      · intro y hy
        rw [List.take_succ_cons] at hy
        rcases List.mem_cons.mp hy with rfl | hy'
        · exact Bool.of_not_eq_true hpa
        · exact htake y hy'

/-- Two distinct matching members force a predicate count of at least
two. -/
lemma two_le_countP {α : Type} (p : α → Bool) (l : List α) (x y : α)
    (hx : x ∈ l) (hy : y ∈ l) (hne : x ≠ y)
    (hpx : p x = true) (hpy : p y = true) : 2 ≤ l.countP p := by
  obtain ⟨s, t, rfl⟩ := List.append_of_mem hx
  have hy' : y ∈ s ∨ y ∈ t := by
    rcases List.mem_append.mp hy with h | h
    · exact Or.inl h
    · rcases List.mem_cons.mp h with rfl | h'
      · exact absurd rfl hne
      · exact Or.inr h'
  have hcount : (s ++ x :: t).countP p
      = s.countP p + (t.countP p + 1) := by
    simp [List.countP_append, List.countP_cons, hpx]
  rcases hy' with h | h
  · have hpos : 0 < s.countP p := List.countP_pos_iff.mpr ⟨y, h, hpy⟩
    omega
  · have hpos : 0 < t.countP p := List.countP_pos_iff.mpr ⟨y, h, hpy⟩
    omega

/-- In a list whose predicate count is at most one, two matching members
coincide. -/
lemma eq_of_countP_le_one {α : Type} (p : α → Bool) (l : List α)
    (hcount : l.countP p ≤ 1) (x y : α) (hx : x ∈ l) (hy : y ∈ l)
    (hpx : p x = true) (hpy : p y = true) : x = y := by
  by_contra hne
  have := two_le_countP p l x y hx hy hne hpx hpy
  omega

/-- `findIndex` only depends on the predicate's values on the list's
members. -/
lemma findIdx?_congr {α : Type} (p q : α → Bool) :
    ∀ (l : List α) (n : ℕ), (∀ x ∈ l, p x = q x) →
      List.findIdx? p l n = List.findIdx? q l n := by
  intro l
  induction l with
  | nil => intro n _; rfl
  | cons a l ih =>
    intro n h
    rw [List.findIdx?_cons, List.findIdx?_cons,
      h a (List.mem_cons_self a l)]
    cases q a
    · exact ih (n + 1) (fun x hx => h x (List.mem_cons_of_mem a hx))
    · rfl

/-- Membership in the sorted per-trip visit list. -/
lemma mem_sortedTrip (stopTimes : List StopTime) (tripId : String)
    (st : StopTime) :
    st ∈ sortedTrip stopTimes tripId ↔ st ∈ stopTimes ∧ st.trip_id = tripId := by
  rw [sortedTrip, (List.perm_insertionSort depLe _).mem_iff, List.mem_filter]
  simp

/-- The sort does not change predicate counts. -/
lemma countP_sortedTrip (stopTimes : List StopTime) (tripId : String)
    (p : StopTime → Bool) :
    (sortedTrip stopTimes tripId).countP p
      = (stopTimes.filter (fun st => st.trip_id = tripId)).countP p :=
  (List.perm_insertionSort depLe _).countP_eq p

/-! ## Origin exclusion and key support -/

/-- When the predicate count of the whole list is at most 1 and the
element at the found index matches, no element after it matches. -/
lemma countP_drop_succ_eq_zero {α : Type} (p : α → Bool) (l : List α)
    (i : ℕ) (x : α) (hdrop : l.drop i = x :: l.drop (i + 1))
    (hpx : p x = true) (hcount : l.countP p ≤ 1) :
    ∀ y ∈ l.drop (i + 1), p y = false := by
  have e1 : l.countP p = (l.take i).countP p + (l.drop i).countP p := by
    conv_lhs => rw [← List.take_append_drop i l]
    rw [List.countP_append]
  have e2 : (l.drop i).countP p = (l.drop (i + 1)).countP p + 1 := by
    rw [hdrop, List.countP_cons, hpx]
    simp
  have h0 : (l.drop (i + 1)).countP p = 0 := by omega
  exact fun y hy => Bool.eq_false_iff.mpr (List.countP_eq_zero.mp h0 y hy)

/-- If the origin occurs at most once in the trip's visit list, one
occurrence walk never writes the origin key: the located index itself is
excluded from both loop ranges. -/
lemma processOccurrence_origin_none (startStopId : String)
    (stopTimes : List StopTime) (timeRadius : ℚ) (m : TravelMap)
    (occ : StopTime)
    (hcount : (sortedTrip stopTimes occ.trip_id).countP
      (fun st => st.stop_id = startStopId) ≤ 1)
    (hm : m startStopId = none) :
    processOccurrence startStopId stopTimes timeRadius m occ startStopId
      = none := by
  cases hidx : List.findIdx? (fun st => st.stop_id = startStopId)
      (sortedTrip stopTimes occ.trip_id) with
  | none => simpa only [processOccurrence, hidx] using hm
  | some i =>
    simp only [processOccurrence, hidx]
    obtain ⟨x, hdrop, hpx, htake⟩ :=
      findIdx?_some_spec _ (sortedTrip stopTimes occ.trip_id) i hidx
    have hdropAll : ∀ y ∈ (sortedTrip stopTimes occ.trip_id).drop (i + 1),
        y.stop_id ≠ startStopId := by
      intro y hy
      have := countP_drop_succ_eq_zero _ _ i x hdrop hpx hcount y hy
      simpa using this
    have htakeAll :
        ∀ y ∈ ((sortedTrip stopTimes occ.trip_id).take i).reverse,
          y.stop_id ≠ startStopId := by
      intro y hy
      have := htake y (List.mem_reverse.mp hy)
      simpa using this
    rw [walkBwd_ne _ _ _ _ _ htakeAll, walkFwd_ne _ _ _ _ _ hdropAll]
    exact hm

/-- A stop id that appears nowhere in the schedule is never written by
one occurrence walk. -/
lemma processOccurrence_unmentioned (startStopId s : String)
    (stopTimes : List StopTime) (timeRadius : ℚ) (m : TravelMap)
    (occ : StopTime) (hall : ∀ st ∈ stopTimes, st.stop_id ≠ s)
    (hm : m s = none) :
    processOccurrence startStopId stopTimes timeRadius m occ s = none := by
  cases hidx : List.findIdx? (fun st => st.stop_id = startStopId)
      (sortedTrip stopTimes occ.trip_id) with
  | none => simpa only [processOccurrence, hidx] using hm
  | some i =>
    simp only [processOccurrence, hidx]
    have hsub : ∀ y ∈ sortedTrip stopTimes occ.trip_id, y.stop_id ≠ s :=
      fun y hy => hall y ((mem_sortedTrip _ _ _).mp hy).1
    rw [walkBwd_ne _ _ _ _ _ (fun y hy =>
        hsub y ((List.take_sublist i _).mem (List.mem_reverse.mp hy))),
      walkFwd_ne _ _ _ _ _ (fun y hy =>
        hsub y ((List.drop_sublist (i + 1) _).mem hy))]
    exact hm

/-- The connectivity result never contains the origin id, provided the
origin occurs at most once per trip. -/
lemma getConnectedStops_origin_none (startStopId : String)
    (stopTimes : List StopTime) (timeRadius : ℚ)
    (hnl : noLoopOrigin startStopId stopTimes) :
    getConnectedStops startStopId stopTimes timeRadius startStopId = none := by
  unfold getConnectedStops
  suffices h : ∀ (occs : List StopTime) (m : TravelMap),
      (∀ occ ∈ occs, (sortedTrip stopTimes occ.trip_id).countP
        (fun st => st.stop_id = startStopId) ≤ 1) →
      m startStopId = none →
      List.foldl (processOccurrence startStopId stopTimes timeRadius) m occs
        startStopId = none by
    apply h
    · intro occ hocc
      have h1 := List.mem_filter.mp hocc
      have h2 : occ.stop_id = startStopId := by simpa using h1.2
      rw [countP_sortedTrip]
      exact hnl occ h1.1 h2
    · rfl
  intro occs
  induction occs with
  | nil => intro m _ hm; exact hm
  | cons occ rest ih =>
    intro m hall hm
    exact ih _ (fun o' ho' => hall o' (List.mem_cons_of_mem occ ho'))
      (processOccurrence_origin_none startStopId stopTimes timeRadius m occ
        (hall occ (List.mem_cons_self occ rest)) hm)

/-- A stop id that appears nowhere in the schedule is absent from the
connectivity result. -/
lemma getConnectedStops_unmentioned (startStopId s : String)
    (stopTimes : List StopTime) (timeRadius : ℚ)
    (hall : ∀ st ∈ stopTimes, st.stop_id ≠ s) :
    getConnectedStops startStopId stopTimes timeRadius s = none := by
  unfold getConnectedStops
  suffices h : ∀ (occs : List StopTime) (m : TravelMap), m s = none →
      List.foldl (processOccurrence startStopId stopTimes timeRadius) m occs
        s = none by
    exact h _ _ rfl
  intro occs
  induction occs with
  | nil => intro m hm; exact hm
  | cons occ rest ih =>
    intro m hm
    exact ih _ (processOccurrence_unmentioned startStopId s stopTimes
      timeRadius m occ hall hm)

/-! ## Claim C1: connectivity result invariants -/

/-- C1 (amended): every travel time stored by `getConnectedStops` is at
most the requested budget; and provided the origin stop appears at most
once in each trip's visit sequence (no loop trip through the origin),
the result never contains the origin stop id.  The unconditional origin
exclusion of the original claim fails on loop trips, see
`C1_counterexample`. -/
theorem C1_amended :
    ∀ (startStopId : String) (stopTimes : List StopTime) (timeRadius : ℚ),
      (∀ s t, getConnectedStops startStopId stopTimes timeRadius s = some t →
        t ≤ timeRadius)
      ∧ (noLoopOrigin startStopId stopTimes →
          getConnectedStops startStopId stopTimes timeRadius startStopId
            = none) :=
  fun startStopId stopTimes timeRadius =>
    ⟨getConnectedStops_bound startStopId stopTimes timeRadius,
      fun hnl => getConnectedStops_origin_none startStopId stopTimes
        timeRadius hnl⟩

/-- C1 witness: on the loop-free scenario schedule, the stored travel
time 5 for stop "A" is within the budget 15, and the origin "O" is
absent from the result. -/
theorem C1_witness :
    ((5:ℚ) ≤ 15)
    ∧ getConnectedStops ("O") schedScenario 15 ("O") = none :=
  ⟨(C1_amended ("O") schedScenario 15).1 ("A") 5 (by with_unfolding_all decide),
    (C1_amended ("O") schedScenario 15).2 (by decide)⟩

/-- C1 counterexample: on the loop trip `schedLoop` (origin "O" visited
at 08:00 and 08:10) the connectivity result contains the origin itself,
with travel time 0 — refuting the claim that the result never contains
the origin stop id. -/
theorem C1_counterexample :
    getConnectedStops ("O") schedLoop 15 ("O") = some 0
    ∧ some (0:ℚ) ≠ none := by
  refine ⟨by with_unfolding_all decide, by simp⟩

/-! ## Claim C5: minimality over trips, directions and occurrences -/

/-- Under the no-loop condition, the `findIndex` by origin stop id used
by the source locates exactly the occurrence being processed, so one
occurrence walk of the source coincides with the specification's
occurrence walk from the occurrence's own position. -/
lemma processOccurrence_eq_spec (startStopId : String)
    (stopTimes : List StopTime) (timeRadius : ℚ) (m : TravelMap)
    (occ : StopTime) (hocc : occ ∈ stopTimes)
    (ho : occ.stop_id = startStopId)
    (hcount : (sortedTrip stopTimes occ.trip_id).countP
      (fun st => st.stop_id = startStopId) ≤ 1) :
    processOccurrence startStopId stopTimes timeRadius m occ
      = processOccurrenceSpec startStopId stopTimes timeRadius m occ := by
  have hmem : occ ∈ sortedTrip stopTimes occ.trip_id :=
    (mem_sortedTrip _ _ _).mpr ⟨hocc, rfl⟩
  have hagree : ∀ x ∈ sortedTrip stopTimes occ.trip_id,
      (decide (x.stop_id = startStopId)) = (decide (x = occ)) := by
    intro x hx
    by_cases hxo : x = occ
    · subst hxo
      simp [ho]
    · simp only [decide_eq_false hxo]
      rw [decide_eq_false]
      intro hxs
      exact hxo (eq_of_countP_le_one _ _ hcount x occ hx hmem
        (by simp [hxs]) (by simp [ho]))
  simp only [processOccurrence, processOccurrenceSpec]
  rw [findIdx?_congr _ _ _ _ hagree]

/-- A fold agrees for two step functions that agree on the fold's
elements. -/
lemma foldl_congr_fn {α β : Type} :
    ∀ (l : List α) (f g : β → α → β) (b : β),
      (∀ b' x, x ∈ l → f b' x = g b' x) → l.foldl f b = l.foldl g b := by
  intro l
  induction l with
  | nil => intro f g b _; rfl
  | cons x xs ih =>
    intro f g b h
    simp only [List.foldl_cons]
    rw [h b x (List.mem_cons_self x xs)]
    exact ih f g _ (fun b' y hy => h b' y (List.mem_cons_of_mem x hy))

/-- Under the no-loop condition the source's connectivity search agrees
with the specification model at every key. -/
lemma getConnectedStops_eq_spec (startStopId : String)
    (stopTimes : List StopTime) (timeRadius : ℚ)
    (hnl : noLoopOrigin startStopId stopTimes) :
    ∀ s, getConnectedStops startStopId stopTimes timeRadius s
      = findReachableSpec startStopId stopTimes timeRadius s := by
  have hfold :
      List.foldl (processOccurrence startStopId stopTimes timeRadius)
        (fun _ => none)
        (stopTimes.filter (fun st => st.stop_id = startStopId))
      = List.foldl (processOccurrenceSpec startStopId stopTimes timeRadius)
        (fun _ => none)
        (stopTimes.filter (fun st => st.stop_id = startStopId)) := by
    apply foldl_congr_fn
    intro m occ hocc
    have h1 := List.mem_filter.mp hocc
    have h2 : occ.stop_id = startStopId := by simpa using h1.2
    refine processOccurrence_eq_spec startStopId stopTimes timeRadius m occ
      h1.1 h2 ?_
    rw [countP_sortedTrip]
    exact hnl occ h1.1 h2
  intro s
  by_cases hs : s = startStopId
  · rw [hs, getConnectedStops_origin_none startStopId stopTimes timeRadius hnl]
    simp [findReachableSpec]
  · unfold getConnectedStops findReachableSpec
    simp only [if_neg hs]
    rw [hfold]

/-- Evaluation of `getConnectedStops` on the {0, 5, 12, 20}-offset
scenario at every key: reachable stops are exactly A (5 minutes) and B
(12 minutes); C is over budget and the origin is excluded. -/
lemma scenario_eval :
    ∀ s, getConnectedStops ("O") schedScenario 15 s = scenarioExpected s := by
  intro s
  by_cases hO : s = "O"
  · subst hO
    with_unfolding_all decide
  by_cases hA : s = "A"
  · subst hA
    with_unfolding_all decide
  by_cases hB : s = "B"
  · subst hB
    with_unfolding_all decide
  by_cases hC : s = "C"
  · subst hC
    with_unfolding_all decide
  have hexp : scenarioExpected s = none := by
    simp [scenarioExpected, hA, hB]
  rw [hexp]
  apply getConnectedStops_unmentioned
  intro st hst
  simp only [schedScenario, List.mem_cons, List.not_mem_nil, or_false] at hst
  rcases hst with rfl | rfl | rfl | rfl
  · exact fun h => hO h.symm
  · exact fun h => hA h.symm
  · exact fun h => hB h.symm
  · exact fun h => hC h.symm

/-- C5 (amended): provided the origin appears at most once in each
trip's visit sequence, the connectivity search records for every
reachable stop the minimum elapsed time over all trips, both directions
and all origin occurrences, exactly as the specification's independent
per-occurrence walk prescribes (including the exclusion of the origin
itself); in particular, for departure offsets {0, 5, 12, 20} to stops
A, B, C, `findReachable(origin, 15)` is exactly {A ↦ 5, B ↦ 12}, with C
excluded because 20 > 15.  Without the no-loop proviso the claim fails,
see `C5_counterexample`. -/
theorem C5_amended :
    (∀ (startStopId : String) (stopTimes : List StopTime) (timeRadius : ℚ),
      noLoopOrigin startStopId stopTimes →
      ∀ s, getConnectedStops startStopId stopTimes timeRadius s
        = findReachableSpec startStopId stopTimes timeRadius s)
    ∧ (∀ s, getConnectedStops ("O") schedScenario 15 s = scenarioExpected s) :=
  ⟨getConnectedStops_eq_spec, scenario_eval⟩

/-- C5 witness: the scenario schedule is loop-free, and at stop "A" the
source's result agrees with the specification model. -/
theorem C5_witness :
    noLoopOrigin ("O") schedScenario
    ∧ getConnectedStops ("O") schedScenario 15 ("A")
        = findReachableSpec ("O") schedScenario 15 ("A") :=
  ⟨by decide, C5_amended.1 ("O") schedScenario 15 (by decide) ("A")⟩

/-- C5 counterexample: on the loop trip `schedLoop` the source records
travel time −5 for stop "A" (the second origin occurrence's departure
time is combined with the first occurrence's position), whereas the
minimum elapsed time over occurrences treated independently is 5 — the
recorded value is not the minimum elapsed time the claim describes. -/
theorem C5_counterexample :
    getConnectedStops ("O") schedLoop 15 ("A") = some (-5)
    ∧ findReachableSpec ("O") schedLoop 15 ("A") = some 5
    ∧ some ((-5):ℚ) ≠ some (5:ℚ) := by
  refine ⟨by with_unfolding_all decide, by with_unfolding_all decide, by norm_num⟩

/-! ## Claim C10: time-string round trip -/

/-- Value of a single decimal digit character. -/
lemma digitChar_toNat_sub (n : ℕ) (h : n < 10) :
    (Nat.digitChar n).toNat - 48 = n := by
  interval_cases n <;> decide

/-- Decimal digit characters are never the colon separator. -/
lemma digitChar_ne_colon (n : ℕ) (h : n < 10) : Nat.digitChar n ≠ (':') := by
  interval_cases n <;> decide

/-- Reading a digit string after appending one digit. -/
lemma digitsToNat_append (ds : List Char) (c : Char) :
    digitsToNat (ds ++ [c]) = 10 * digitsToNat ds + (c.toNat - 48) := by
  simp [digitsToNat, List.foldl_append]

/-- Rendering then reading a natural number is the identity. -/
lemma digitsToNat_natToDigits : ∀ n : ℕ, digitsToNat (natToDigits n) = n := by
  intro n
  induction n using Nat.strong_induction_on with
  | _ n ih =>
    rw [natToDigits]
    by_cases h : n < 10
    · rw [dif_pos h]
      show 10 * 0 + ((Nat.digitChar n).toNat - 48) = n
      rw [digitChar_toNat_sub n h]
      omega
    · rw [dif_neg h]
      rw [digitsToNat_append,
        ih (n / 10) (Nat.div_lt_self (by omega) (by omega)),
        digitChar_toNat_sub (n % 10) (Nat.mod_lt n (by omega))]
      omega

/-- The rendering of a natural number contains no colon. -/
lemma natToDigits_ne_colon : ∀ (n : ℕ), ∀ c ∈ natToDigits n, c ≠ (':') := by
  intro n
  induction n using Nat.strong_induction_on with
  | _ n ih =>
    intro c hc
    rw [natToDigits] at hc
    by_cases h : n < 10
    · rw [dif_pos h] at hc
      rw [List.mem_singleton] at hc
      subst hc
      exact digitChar_ne_colon n h
    · rw [dif_neg h] at hc
      rcases List.mem_append.mp hc with h1 | h2
      · exact ih (n / 10) (Nat.div_lt_self (by omega) (by omega)) c h1
      · rw [List.mem_singleton] at h2
        subst h2
        exact digitChar_ne_colon _ (Nat.mod_lt n (by omega))

/-- A leading zero does not change the value of a digit string. -/
lemma digitsToNat_cons_zero (cs : List Char) :
    digitsToNat (('0') :: cs) = digitsToNat cs := rfl

/-- Zero padding does not change the value of a digit string. -/
lemma digitsToNat_padStart2 (cs : List Char) :
    digitsToNat (padStart2 cs) = digitsToNat cs := by
  unfold padStart2
  split
  · rename_i h
    interval_cases hl : cs.length
    · simp only [show (2:ℕ) - 0 = 2 from rfl]
      rw [show List.replicate 2 ('0') ++ cs = ('0') :: (('0') :: cs) by simp [List.replicate]]
      rw [digitsToNat_cons_zero, digitsToNat_cons_zero]
    · simp only [show (2:ℕ) - 1 = 1 from rfl]
      rw [show List.replicate 1 ('0') ++ cs = ('0') :: cs by simp [List.replicate]]
      rw [digitsToNat_cons_zero]
  · rfl

/-- Zero padding introduces no colon. -/
lemma padStart2_ne_colon (cs : List Char) (h : ∀ c ∈ cs, c ≠ (':')) :
    ∀ c ∈ padStart2 cs, c ≠ (':') := by
  intro c hc
  unfold padStart2 at hc
  split at hc
  · rcases List.mem_append.mp hc with h1 | h2
    · have := List.eq_of_mem_replicate h1
      subst this
      decide
    · exact h c h2
  · exact h c hc

/-- Splitting a separator-free string yields the single fragment. -/
lemma splitOnChar_no_sep (sep : Char) :
    ∀ (cs : List Char), (∀ c ∈ cs, c ≠ sep) →
      splitOnChar sep cs = [cs] := by
  intro cs
  induction cs with
  | nil => intro _; rfl
  | cons c cs' ih =>
    intro h
    have hc : c ≠ sep := h c (List.mem_cons_self c cs')
    have hrest := ih (fun c' hc' => h c' (List.mem_cons_of_mem c hc'))
    simp only [splitOnChar, hrest, if_neg hc]

/-- Splitting after a separator-free prefix peels off that prefix. -/
lemma splitOnChar_append (sep : Char) :
    ∀ (a rest : List Char), (∀ c ∈ a, c ≠ sep) →
      splitOnChar sep (a ++ sep :: rest) = a :: splitOnChar sep rest := by
  intro a
  induction a with
  | nil =>
    intro rest _
    simp [splitOnChar]
  | cons c a' ih =>
    intro rest h
    have hc : c ≠ sep := h c (List.mem_cons_self c a')
    have hrest := ih rest (fun c' hc' => h c' (List.mem_cons_of_mem c hc'))
    simp only [List.cons_append, splitOnChar, List.append_eq, hrest, if_neg hc]

/-- Floor of a natural number divided by 60 is natural division. -/
lemma floor_natCast_div_sixty (m : ℕ) :
    ⌊((m:ℚ)) / 60⌋ = ((m / 60 : ℕ) : ℤ) := by
  have hdm := Nat.div_add_mod m 60
  have hc : 60 * ((m / 60 : ℕ):ℚ) + ((m % 60 : ℕ):ℚ) = (m:ℚ) := by
    exact_mod_cast hdm
  have hlt : ((m % 60 : ℕ):ℚ) < 60 := by
    exact_mod_cast Nat.mod_lt m (by omega)
  have hge : (0:ℚ) ≤ ((m % 60 : ℕ):ℚ) := by positivity
  rw [Int.floor_eq_iff]
  constructor
  · rw [Int.cast_natCast, le_div_iff₀ (by norm_num : (0:ℚ) < 60)]
    linarith
  · rw [Int.cast_natCast, div_lt_iff₀ (by norm_num : (0:ℚ) < 60)]
    linarith

/-- JavaScript truncation agrees with the floor on non-negative
arguments. -/
lemma jsTrunc_of_nonneg (q : ℚ) (h : 0 ≤ q) : jsTrunc q = ⌊q⌋ :=
  if_pos h

/-- `m % 60` on whole minutes. -/
lemma jsMod_sixty (m : ℕ) : jsMod ((m:ℚ)) 60 = ((m % 60 : ℕ) : ℚ) := by
  unfold jsMod
  rw [jsTrunc_of_nonneg _ (by positivity), floor_natCast_div_sixty,
    Int.cast_natCast]
  have hc : 60 * ((m / 60 : ℕ):ℚ) + ((m % 60 : ℕ):ℚ) = (m:ℚ) := by
    exact_mod_cast Nat.div_add_mod m 60
  linarith

/-- `m % 1` vanishes on whole minutes. -/
lemma jsMod_one (m : ℕ) : jsMod ((m:ℚ)) 1 = 0 := by
  unfold jsMod
  rw [div_one, jsTrunc_of_nonneg _ (by positivity), Int.floor_natCast]
  push_cast
  ring

/-- Rendering a natural number as an integer. -/
lemma intToChars_natCast (k : ℕ) : intToChars ((k : ℕ) : ℤ) = natToDigits k := by
  unfold intToChars
  rw [if_neg (by omega : ¬ (((k : ℕ) : ℤ) < 0)), Int.toNat_natCast]

/-- The formatted string of a whole number of minutes, in terms of its
three digit groups. -/
lemma formatMinutesToTime_natCast (m : ℕ) :
    formatMinutesToTime (m : ℚ)
      = String.mk (padStart2 (natToDigits (m / 60)) ++ (':') ::
          (padStart2 (natToDigits (m % 60)) ++ (':') ::
            padStart2 (natToDigits 0))) := by
  simp only [formatMinutesToTime]
  rw [floor_natCast_div_sixty, jsMod_sixty, jsMod_one, Int.floor_natCast,
    show ((0:ℚ) * 60) = 0 from by ring, Int.floor_zero,
    intToChars_natCast, intToChars_natCast,
    show intToChars 0 = natToDigits 0 from rfl]

/-- Parsing a three-field colon-separated string. -/
lemma parse_of_three (p1 p2 p3 : List Char)
    (h1 : ∀ c ∈ p1, c ≠ (':')) (h2 : ∀ c ∈ p2, c ≠ (':'))
    (h3 : ∀ c ∈ p3, c ≠ (':')) :
    parseTimeToMinutes (String.mk (p1 ++ (':') :: (p2 ++ (':') :: p3)))
      = charsToNumber p1 * 60 + charsToNumber p2
        + (if charsToNumber p3 ≠ 0 then charsToNumber p3 / 60 else 0) := by
  simp only [parseTimeToMinutes]
  rw [splitOnChar_append _ _ _ h1, splitOnChar_append _ _ _ h2,
    splitOnChar_no_sep _ _ h3]
  rfl

/-- C10: formatting a whole number of minutes past midnight (including
overnight values of 1440 and above, whose hour field exceeds two digits)
to an HH:MM:SS string and parsing it back is the identity. -/
theorem C10_theorem (m : ℕ) :
    parseTimeToMinutes (formatMinutesToTime (m : ℚ)) = (m : ℚ) := by
  rw [formatMinutesToTime_natCast,
    parse_of_three _ _ _ (padStart2_ne_colon _ (natToDigits_ne_colon _))
      (padStart2_ne_colon _ (natToDigits_ne_colon _))
      (padStart2_ne_colon _ (natToDigits_ne_colon _))]
  unfold charsToNumber
  rw [digitsToNat_padStart2, digitsToNat_padStart2, digitsToNat_padStart2,
    digitsToNat_natToDigits, digitsToNat_natToDigits, digitsToNat_natToDigits]
  rw [if_neg (by norm_num : ¬ (((0:ℕ):ℚ) ≠ 0))]
  have hdm := Nat.div_add_mod m 60
  have hc : 60 * ((m / 60 : ℕ):ℚ) + ((m % 60 : ℕ):ℚ) = (m:ℚ) := by
    exact_mod_cast hdm
  linarith
